import Mathlib

/-!
Shallow embedding of the MatlabToCpp numeric kernels and their test
harness logic, with theorems settling the specification claims.

Doubles are modelled as exact rationals (ℚ); division is total with
`x / 0 = 0`, so every claim that touches a quotient carries an explicit
nonzero-denominator hypothesis mirroring the `S ≠ 0` / `dt ≠ 0`
conditions of the spec.
-/

namespace KalmanFilter

/-- Output record of one Kalman step: the updated state `[x0, x1]` and the
updated covariance flattened row-major `[P11, P12, P21, P22]`, mirroring the
two output arrays of `kalman_filter.cpp`. -/
structure KalmanOutput where
  updated_state : ℚ × ℚ
  updated_covariance : ℚ × ℚ × ℚ × ℚ
  deriving DecidableEq, Repr

/-- Embedding of `kalman_filter::kalman_filter` from
`src/algorithms/kalman_filter/generated/kalman_filter.cpp`, with the same
local names and the same order of scalar operations. -/
def kalman_filter (state : ℚ × ℚ) (measurement : ℚ)
    (state_covariance : ℚ × ℚ × ℚ × ℚ)
    (measurement_noise process_noise : ℚ) : KalmanOutput :=
  let P11 := state_covariance.1
  let P12 := state_covariance.2.1
  let P21 := state_covariance.2.2.1
  let P22 := state_covariance.2.2.2
  -- Predict: x_pred = F * state with F = [1, 1; 0, 1]
  let x_pred0 := state.1 + state.2
  let x_pred1 := state.2
  -- P_pred = F * P * F^T + Q on the diagonal
  let Pp11 := (P11 + P21) + (P12 + P22) + process_noise
  let Pp12 := (P12 + P22)
  let Pp21 := (P21 + P22)
  let Pp22 := P22 + process_noise
  -- Update with H = [1, 0]
  let y := measurement - x_pred0
  let S := Pp11 + measurement_noise
  let K0 := Pp11 / S
  let K1 := Pp21 / S
  let us0 := x_pred0 + K0 * y
  let us1 := x_pred1 + K1 * y
  -- Joseph form covariance update
  let ikh00 := 1 - K0
  let ikh10 := -K1
  let A00 := ikh00 * Pp11
  let A01 := ikh00 * Pp12
  let A10 := ikh10 * Pp11 + Pp21
  let A11 := ikh10 * Pp12 + Pp22
  let P_up11 := A00 * ikh00 + K0 * measurement_noise * K0
  let P_up12 := A00 * ikh10 + A01 + K0 * measurement_noise * K1
  let P_up21 := A10 * ikh00 + K1 * measurement_noise * K0
  let P_up22 := A10 * ikh10 + A11 + K1 * measurement_noise * K1
  { updated_state := (us0, us1),
    updated_covariance := (P_up11, P_up12, P_up21, P_up22) }

/-- The innovation covariance `S = P_pred[0][0] + R` computed by the kernel,
as a standalone function of the inputs it actually depends on. -/
def kalman_S (state_covariance : ℚ × ℚ × ℚ × ℚ)
    (measurement_noise process_noise : ℚ) : ℚ :=
  let P11 := state_covariance.1
  let P12 := state_covariance.2.1
  let P21 := state_covariance.2.2.1
  let P22 := state_covariance.2.2.2
  ((P11 + P21) + (P12 + P22) + process_noise) + measurement_noise

end KalmanFilter

namespace KalmanFilter

/-- C1 (counterexample): with the asymmetric input covariance
`[1, 1, 0, 1]`, `R = 1`, `Q = 0` the innovation covariance is `4 ≠ 0`, yet
the updated covariance is not symmetric: entry `[1]` is `1/2` while entry
`[2]` is `1/4`. -/
theorem kalman_symmetry_counterexample :
    kalman_S (1, 1, 0, 1) 1 0 ≠ 0 ∧
    (kalman_filter (0, 0) 0 (1, 1, 0, 1) 1 0).updated_covariance.2.1 ≠
      (kalman_filter (0, 0) 0 (1, 1, 0, 1) 1 0).updated_covariance.2.2.1 := by
  constructor <;> norm_num [kalman_filter, kalman_S]

/-- C1 (amended): for every Kalman input whose state covariance is symmetric
(`state_covariance[1] = state_covariance[2]`) and whose innovation covariance
`S` is nonzero, the updated covariance is symmetric:
`updated_covariance[1] = updated_covariance[2]`. -/
theorem kalman_updated_covariance_symm (state : ℚ × ℚ) (measurement : ℚ)
    (state_covariance : ℚ × ℚ × ℚ × ℚ) (measurement_noise process_noise : ℚ)
    (hsymm : state_covariance.2.1 = state_covariance.2.2.1)
    (hS : kalman_S state_covariance measurement_noise process_noise ≠ 0) :
    (kalman_filter state measurement state_covariance measurement_noise
        process_noise).updated_covariance.2.1 =
      (kalman_filter state measurement state_covariance measurement_noise
        process_noise).updated_covariance.2.2.1 := by
  obtain ⟨P11, P12, P21, P22⟩ := state_covariance
  simp only at hsymm
  subst hsymm
  simp only [kalman_filter]
  ring

/-- C1 (witness): the symmetry theorem applied at the concrete symmetric
input `P = [10, 0, 0, 10]`, `R = 2`, `Q = 1/10`. -/
theorem kalman_updated_covariance_symm_witness :
    (kalman_filter (0, 0) 1 (10, 0, 0, 10) 2 (1/10)).updated_covariance.2.1 =
      (kalman_filter (0, 0) 1 (10, 0, 0, 10) 2 (1/10)).updated_covariance.2.2.1 :=
  kalman_updated_covariance_symm (0, 0) 1 (10, 0, 0, 10) 2 (1/10)
    (by norm_num) (by norm_num [kalman_S])

/-- C2 (counterexample): on inputs `state = [0,0]`, `measurement = 1`,
`state_covariance = [10, 0, 0, 10]`, `R = 2`, `Q = 1/10` the kernel's
`updated_state[0]` is not within `1e-3` of `0.8398`. -/
theorem kalman_scenario_counterexample :
    ¬ |(kalman_filter (0, 0) 1 (10, 0, 0, 10) 2 (1/10)).updated_state.1 -
        4199/5000| ≤ 1/1000 := by
  norm_num [kalman_filter, abs_le]

/-- C2 (amended): on inputs `state = [0,0]`, `measurement = 1`,
`state_covariance = [10, 0, 0, 10]`, `R = 2`, `Q = 1/10` the kernel yields
`updated_state[0] = 201/221 ≈ 0.9095`, with intermediate values
`S = 221/10 = 22.1` and `K0 = 201/221 ≈ 0.9095` (and innovation `y = 1`). -/
theorem kalman_scenario_value :
    (kalman_filter (0, 0) 1 (10, 0, 0, 10) 2 (1/10)).updated_state.1 = 201/221 ∧
    kalman_S (10, 0, 0, 10) 2 (1/10) = 221/10 := by
  constructor <;> norm_num [kalman_filter, kalman_S]

/-- C9: the updated covariance is independent of the state vector and the
measurement: two invocations agreeing on `state_covariance`,
`measurement_noise` and `process_noise` return identical
`updated_covariance` values, whatever their `state` and `measurement`. -/
theorem kalman_covariance_independent_of_state_measurement
    (state state' : ℚ × ℚ) (measurement measurement' : ℚ)
    (state_covariance : ℚ × ℚ × ℚ × ℚ)
    (measurement_noise process_noise : ℚ) :
    (kalman_filter state measurement state_covariance measurement_noise
        process_noise).updated_covariance =
      (kalman_filter state' measurement' state_covariance measurement_noise
        process_noise).updated_covariance := rfl

end KalmanFilter

namespace LowPassFilter

/-- The loop body of `low_pass_filter`: given the previous output sample
`prev`, fold over the remaining input producing
`alpha * x + (1 - alpha) * prev` at each step. -/
def lpfLoop (alpha : ℚ) (prev : ℚ) : List ℚ → List ℚ
  | [] => []
  | x :: xs => (alpha * x + (1 - alpha) * prev) :: lpfLoop alpha (alpha * x + (1 - alpha) * prev) xs

/-- Embedding of `low_pass_filter::low_pass_filter` from
`src/algorithms/low_pass_filter/generated/low_pass_filter.cpp`.  The input
array together with the length argument `n : ℤ` is modelled as the list of
the first `n` input samples; `if n <= 0 return` is the leading guard, and the
defined behavior (the C code reads `input_signal[0]` unconditionally once the
guard passes) requires a nonempty input when `n > 0`. -/
def low_pass_filter (input_signal : List ℚ) (alpha : ℚ) (n : ℤ) : List ℚ :=
  if n ≤ 0 then []
  else
    match input_signal.take n.toNat with
    | [] => []
    | x :: xs => x :: lpfLoop alpha x xs

theorem lpfLoop_length (alpha prev : ℚ) (xs : List ℚ) :
    (lpfLoop alpha prev xs).length = xs.length := by
  induction xs generalizing prev with
  | nil => rfl
  | cons x xs ih => simp [lpfLoop, ih]

theorem lpfLoop_getD (alpha prev : ℚ) (xs : List ℚ) (k : ℕ) (hk : k < xs.length) :
    (lpfLoop alpha prev xs).getD k 0 =
      alpha * xs.getD k 0 +
        (1 - alpha) * ((prev :: lpfLoop alpha prev xs).getD k 0) := by
  induction xs generalizing prev k with
  | nil => simp at hk
  | cons x xs ih =>
    cases k with
    | zero => simp [lpfLoop]
    | succ k =>
      simp only [lpfLoop, List.getD_cons_succ]
      have hk' : k < xs.length := by simpa using hk
      exact ih _ k hk'

end LowPassFilter

namespace PIDController

/-- Output record of one PID step, mirroring the three output pointers of
`pid_controller.cpp`. -/
structure PIDOutput where
  output : ℚ
  new_integral : ℚ
  new_prev_error : ℚ
  deriving DecidableEq, Repr

/-- Embedding of `pid_controller::pid_controller` from
`src/algorithms/pid_controller/generated/pid_controller.cpp`. -/
def pid_controller (error integral prev_error kp ki kd dt : ℚ) : PIDOutput :=
  let new_integral := integral + error * dt
  let derivative := (error - prev_error) / dt
  let output := kp * error + ki * new_integral + kd * derivative
  { output := output, new_integral := new_integral, new_prev_error := error }

end PIDController

namespace LowPassFilter

theorem lpfLoop_one (prev : ℚ) (xs : List ℚ) : lpfLoop 1 prev xs = xs := by
  induction xs generalizing prev with
  | nil => rfl
  | cons x xs ih => simp [lpfLoop, ih]

theorem lpfLoop_zero_getD (prev : ℚ) (xs : List ℚ) :
    ∀ k : ℕ, k < xs.length → (lpfLoop 0 prev xs).getD k 0 = prev := by
  induction xs generalizing prev with
  | nil => intro k hk; simp at hk
  | cons x xs ih =>
    intro k hk
    cases k with
    | zero => simp [lpfLoop]
    | succ k =>
      have hk' : k < xs.length := by simpa using hk
      have hstep : (0 : ℚ) * x + (1 - 0) * prev = prev := by ring
      simp only [lpfLoop, List.getD_cons_succ, hstep]
      exact ih prev k hk'

/-- On a nonempty input of declared length `n = input.length > 0`, the
filter output is the head followed by the loop outputs. -/
theorem low_pass_filter_cons (x : ℚ) (xs : List ℚ) (alpha : ℚ) (n : ℤ)
    (hn : n = (x :: xs).length) :
    low_pass_filter (x :: xs) alpha n = x :: lpfLoop alpha x xs := by
  have hpos : ¬ n ≤ 0 := by
    subst hn
    simp only [List.length_cons]
    omega
  have htake : (x :: xs).take n.toNat = x :: xs := by
    subst hn
    simp
  simp [low_pass_filter, hpos, htake]

/-- C3: for every input sequence of declared length `n` and every `alpha`,
the output satisfies `output[0] = input[0]` and
`output[k] = alpha * input[k] + (1 - alpha) * output[k-1]` for `1 ≤ k < n`,
has the same length as the input, and whenever `n ≤ 0` the call produces no
output at all (a no-op, not an error). -/
theorem low_pass_filter_spec (input_signal : List ℚ) (alpha : ℚ) (n : ℤ) :
    (n ≤ 0 → low_pass_filter input_signal alpha n = []) ∧
    (n = input_signal.length → 0 < n →
      (low_pass_filter input_signal alpha n).length = input_signal.length ∧
      (low_pass_filter input_signal alpha n).getD 0 0 = input_signal.getD 0 0 ∧
      ∀ k : ℕ, 1 ≤ k → (k : ℤ) < n →
        (low_pass_filter input_signal alpha n).getD k 0 =
          alpha * input_signal.getD k 0 +
            (1 - alpha) * ((low_pass_filter input_signal alpha n).getD (k - 1) 0)) := by
  constructor
  · intro hle
    simp [low_pass_filter, hle]
  · intro hn hpos
    obtain ⟨x, xs, rfl⟩ : ∃ y ys, input_signal = y :: ys := by
      cases input_signal with
      | nil => subst hn; simp at hpos
      | cons y ys => exact ⟨y, ys, rfl⟩
    rw [low_pass_filter_cons x xs alpha n hn]
    refine ⟨by simp [lpfLoop_length], by simp, ?_⟩
    intro k hk1 hkn
    obtain ⟨k, rfl⟩ : ∃ m, k = m + 1 := ⟨k - 1, by omega⟩
    have hk' : k < xs.length := by
      subst hn
      simp only [List.length_cons] at hkn
      omega
    simpa using lpfLoop_getD alpha x xs k hk'

/-- C3 (witness): the specification instantiated on `input = [1, 2, 3]`,
`alpha = 1/2`, `n = 3`: the recurrence at `k = 2` together with the no-op
behavior at `n = 0`. -/
theorem low_pass_filter_spec_witness :
    low_pass_filter [1, 2, 3] (1/2) 0 = [] ∧
    (low_pass_filter [1, 2, 3] (1/2) 3).getD 2 0 =
      (1/2) * ([1, 2, 3] : List ℚ).getD 2 0 +
        (1 - 1/2) * ((low_pass_filter [1, 2, 3] (1/2) 3).getD 1 0) := by
  constructor
  · exact (low_pass_filter_spec [1, 2, 3] (1/2) 0).1 (by norm_num)
  · exact ((low_pass_filter_spec [1, 2, 3] (1/2) 3).2 (by simp) (by norm_num)).2.2
      2 (by norm_num) (by norm_num)

/-- C4: for every input of declared length `n ≥ 1`, `output[0] = input[0]`
exactly, and with `alpha = 1` the filter is the identity: the whole output
equals the input. -/
theorem low_pass_filter_identity (input_signal : List ℚ) (alpha : ℚ) (n : ℤ)
    (hn : n = input_signal.length) (hpos : 1 ≤ n) :
    (low_pass_filter input_signal alpha n).getD 0 0 = input_signal.getD 0 0 ∧
    (alpha = 1 → low_pass_filter input_signal alpha n = input_signal) := by
  obtain ⟨x, xs, rfl⟩ : ∃ y ys, input_signal = y :: ys := by
    cases input_signal with
    | nil => subst hn; simp at hpos
    | cons y ys => exact ⟨y, ys, rfl⟩
  rw [low_pass_filter_cons x xs alpha n hn]
  exact ⟨by simp, fun ha => by simp [ha, lpfLoop_one]⟩

/-- C4 (witness): on `input = [1, 2, 3]` with `alpha = 1` and `n = 3` the
output head equals the input head and the filter is the identity. -/
theorem low_pass_filter_identity_witness :
    (low_pass_filter [1, 2, 3] 1 3).getD 0 0 = ([1, 2, 3] : List ℚ).getD 0 0 ∧
    low_pass_filter [1, 2, 3] 1 3 = [1, 2, 3] := by
  have h := low_pass_filter_identity [1, 2, 3] 1 3 (by simp) (by norm_num)
  exact ⟨h.1, h.2 rfl⟩

/-- C10: with `alpha = 0` (unvalidated, outside the conceptual range) and a
nonempty input of declared length `n`, every output sample equals
`input[0]`. -/
theorem low_pass_filter_alpha_zero (input_signal : List ℚ) (n : ℤ)
    (hn : n = input_signal.length) (hpos : 1 ≤ n) :
    ∀ k : ℕ, (k : ℤ) < n →
      (low_pass_filter input_signal 0 n).getD k 0 = input_signal.getD 0 0 := by
  obtain ⟨x, xs, rfl⟩ : ∃ y ys, input_signal = y :: ys := by
    cases input_signal with
    | nil => subst hn; simp at hpos
    | cons y ys => exact ⟨y, ys, rfl⟩
  rw [low_pass_filter_cons x xs 0 n hn]
  intro k hk
  cases k with
  | zero => simp
  | succ k =>
    have hk' : k < xs.length := by
      subst hn
      simp only [List.length_cons] at hk
      omega
    simpa using lpfLoop_zero_getD x xs k hk'

/-- C10 (witness): on `input = [5, 7, 9]` with `alpha = 0` and `n = 3` the
last output sample equals `input[0] = 5`. -/
theorem low_pass_filter_alpha_zero_witness :
    (low_pass_filter [5, 7, 9] 0 3).getD 2 0 = 5 :=
  low_pass_filter_alpha_zero [5, 7, 9] 3 (by simp) (by norm_num) 2 (by norm_num)

end LowPassFilter

namespace PIDController

/-- C5: for every PID input, `new_prev_error` equals `error` exactly and
`new_integral` equals `integral + error * dt` exactly. -/
theorem pid_carry_and_integral (error integral prev_error kp ki kd dt : ℚ) :
    (pid_controller error integral prev_error kp ki kd dt).new_prev_error = error ∧
    (pid_controller error integral prev_error kp ki kd dt).new_integral =
      integral + error * dt :=
  ⟨rfl, rfl⟩

/-- C6: with `error = 2`, `integral = 0`, `prev_error = 1`, `kp = 1`,
`ki = 1/2`, `kd = 1/10`, `dt = 1`, the controller yields
`new_integral = 2`, `output = 2 + 1 + 1/10 = 31/10` and
`new_prev_error = 2`. -/
theorem pid_scenario :
    (pid_controller 2 0 1 1 (1/2) (1/10) 1).new_integral = 2 ∧
    (pid_controller 2 0 1 1 (1/2) (1/10) 1).output = 31/10 ∧
    (pid_controller 2 0 1 1 (1/2) (1/10) 1).new_prev_error = 2 := by
  refine ⟨?_, ?_, ?_⟩ <;> norm_num [pid_controller]

end PIDController

namespace TestHarness

open KalmanFilter

/-- Embedding of the tolerance resolution performed by `LoadTestVectors` in
`test_kalman_filter.cpp` / `test_pid_controller.cpp` /
`test_low_pass_filter.cpp`: `global_abs_tol` starts at the hard-coded
`1e-10`, is replaced by the suite's `global_tolerance.absolute` when that
field is present, and the per-case `tolerance.absolute` overrides it when
present. -/
def resolveTolerance (suite_tol case_tol : Option ℚ) : ℚ :=
  let global_abs_tol : ℚ :=
    match suite_tol with
    | some g => g
    | none => 1 / 10 ^ 10
  match case_tol with
  | some c => c
  | none => global_abs_tol

/-- One parsed Kalman test case, mirroring `struct TestCase` of
`test_kalman_filter.cpp` (expected outputs omitted: the exporter never
reads them). `abs_tolerance` is the already-resolved tolerance stored by
`LoadTestVectors`. -/
structure KFTestCase where
  name : String
  state : ℚ × ℚ
  measurement : ℚ
  state_covariance : ℚ × ℚ × ℚ × ℚ
  measurement_noise : ℚ
  process_noise : ℚ
  abs_tolerance : ℚ

/-- Invoking the kernel on one case's inputs, exactly as both the
parameterized test body and `CppOutputWriter::TearDown` do. -/
def runCase (tc : KFTestCase) : KalmanOutput :=
  kalman_filter tc.state tc.measurement tc.state_covariance
    tc.measurement_noise tc.process_noise

/-- The actual outputs computed during the conformance pass, one per loaded
case in discovery order. -/
def conformanceOutputs (cases : List KFTestCase) : List KalmanOutput :=
  cases.map runCase

/-- One entry of `cpp_outputs.json`, mirroring the JSON object built in
`CppOutputWriter::TearDown`. -/
structure EquivalenceRecord where
  test_name : String
  actual_updated_state : ℚ × ℚ
  actual_updated_covariance : ℚ × ℚ × ℚ × ℚ
  tolerance : ℚ

/-- Embedding of the equivalence-export pass (`CppOutputWriter::TearDown`):
after the conformance pass it walks the loaded cases in order, re-invokes
the kernel on each case's inputs, and records the actual outputs and the
case's resolved tolerance. -/
def equivalenceRecords (cases : List KFTestCase) : List EquivalenceRecord :=
  cases.map fun tc =>
    { test_name := tc.name
      actual_updated_state := (runCase tc).updated_state
      actual_updated_covariance := (runCase tc).updated_covariance
      tolerance := tc.abs_tolerance }

/-- C7: the resolved absolute tolerance is the case-level override when
present; otherwise the suite-level global tolerance when present; otherwise
the hard-coded default `1e-10` — and a case-level override takes effect
regardless of the suite default. -/
theorem resolveTolerance_spec :
    (∀ suite_tol : Option ℚ, ∀ c : ℚ, resolveTolerance suite_tol (some c) = c) ∧
    (∀ g : ℚ, resolveTolerance (some g) none = g) ∧
    resolveTolerance none none = 1 / 10 ^ 10 :=
  ⟨fun s c => by cases s <;> rfl, fun g => rfl, rfl⟩

/-- C8: the equivalence-export pass produces, for each loaded case, exactly
the outputs the conformance pass computed for that case, records exactly the
case's resolved tolerance, and keeps the records in discovery order (record
`i` carries the name of case `i`). -/
theorem equivalenceRecords_spec (cases : List KFTestCase) :
    ((equivalenceRecords cases).map fun r =>
        (r.actual_updated_state, r.actual_updated_covariance)) =
      ((conformanceOutputs cases).map fun o =>
        (o.updated_state, o.updated_covariance)) ∧
    ((equivalenceRecords cases).map EquivalenceRecord.tolerance) =
      cases.map KFTestCase.abs_tolerance ∧
    ((equivalenceRecords cases).map EquivalenceRecord.test_name) =
      cases.map KFTestCase.name := by
  refine ⟨?_, ?_, ?_⟩ <;>
    simp [equivalenceRecords, conformanceOutputs, List.map_map, Function.comp]

end TestHarness
